import Mathlib

/-!
Shallow embedding of the `fpatron/website` portfolio server
(`internal/handler` package, file `src/unnamed/part_000`, and
`cmd/server/main.go`), together with proofs of the specification claims.

The Go program loads five JSON fixture files into typed records at startup
(`New`, `loadJSON`), parses HTML templates, and serves six routes.  We embed:

* a JSON value type and a parser with the semantics of
  `encoding/json.Decoder.Decode`: it consumes the first JSON value of the
  input and ignores trailing bytes (numbers are modelled as integers, which
  covers every shape the fixture record types use);
* Go's `json.Unmarshal` semantics for the record types declared in the
  source: object keys match struct tags case-insensitively, unknown keys are
  ignored, missing keys leave the zero value in place, `null` is a no-op,
  and a type mismatch is an error;
* the handler constructor `New` and the six HTTP handler methods, over an
  explicit response-writer and log state;
* the logging middleware of `cmd/server/main.go` over a trace of
  response-writer calls.
-/

namespace Portfolio

/-- JSON values as decoded by `encoding/json`.  Numbers are modelled as
integers: every numeric field of the fixture record types is a Go `int`. -/
inductive Json where
  | null : Json
  | bool (b : Bool) : Json
  | num (n : Int) : Json
  | str (s : String) : Json
  | arr (elems : List Json) : Json
  | obj (fields : List (String × Json)) : Json

/-- Whitespace characters skipped by the JSON scanner. -/
def isWs (c : Char) : Bool :=
  c = ' ' || c = '\n' || c = '\t' || c = '\r'

/-- Drop leading JSON whitespace. -/
def skipWs : List Char → List Char
  | [] => []
  | c :: cs => if isWs c then skipWs cs else c :: cs

/-- Consume an expected literal suffix (used for `null`, `true`, `false`). -/
def dropLit : List Char → List Char → Option (List Char)
  | [], cs => some cs
  | _ :: _, [] => none
  | l :: ls, c :: cs => if c = l then dropLit ls cs else none

/-- Translate a JSON string escape character. -/
def escChar (c : Char) : Option Char :=
  if c = '\"' then some '\"'
  else if c = '\\' then some '\\'
  else if c = '/' then some '/'
  else if c = 'n' then some '\n'
  else if c = 't' then some '\t'
  else if c = 'r' then some '\r'
  else none

/-- Parse the body of a JSON string (after the opening quote), returning the
string and the remaining input. -/
def parseStringBody : List Char → Option (String × List Char)
  | [] => none
  | c :: cs =>
    if c = '\"' then some ("", cs)
    else if c = '\\' then
      match cs with
      | [] => none
      | e :: cs2 =>
        match escChar e with
        | none => none
        | some d =>
          match parseStringBody cs2 with
          | none => none
          | some (s, r) => some (String.mk (d :: s.data), r)
    else
      match parseStringBody cs with
      | none => none
      | some (s, r) => some (String.mk (c :: s.data), r)

/-- Take a (nonempty) prefix of decimal digits. -/
def takeDigits : List Char → List Char × List Char
  | [] => ([], [])
  | c :: cs =>
    if c.isDigit then
      let (ds, r) := takeDigits cs
      (c :: ds, r)
    else ([], c :: cs)

/-- Numeric value of a digit list. -/
def digitsVal (ds : List Char) : Nat :=
  ds.foldl (fun n c => 10 * n + (c.toNat - 48)) 0

mutual

/-- Parse one JSON value.  `fuel` bounds recursion depth; the remaining
input after the value is returned unconsumed, matching
`json.Decoder.Decode`, which reads a single value and leaves the rest of
the stream untouched. -/
def parseVal : Nat → List Char → Option (Json × List Char)
  | 0, _ => none
  | fuel + 1, cs =>
    match skipWs cs with
    | [] => none
    | c :: rest =>
      if c = 'n' then
        match dropLit ['u', 'l', 'l'] rest with
        | none => none
        | some r => some (Json.null, r)
      else if c = 't' then
        match dropLit ['r', 'u', 'e'] rest with
        | none => none
        | some r => some (Json.bool true, r)
      else if c = 'f' then
        match dropLit ['a', 'l', 's', 'e'] rest with
        | none => none
        | some r => some (Json.bool false, r)
      else if c = '\"' then
        match parseStringBody rest with
        | none => none
        | some (s, r) => some (Json.str s, r)
      else if c = '[' then
        match skipWs rest with
        | ']' :: r2 => some (Json.arr [], r2)
        | r2 => match parseElems fuel r2 with
                | none => none
                | some (vs, r3) => some (Json.arr vs, r3)
      else if c = '\x7b' then
        match skipWs rest with
        | '\x7d' :: r2 => some (Json.obj [], r2)
        | r2 => match parseMembers fuel r2 with
                | none => none
                | some (kvs, r3) => some (Json.obj kvs, r3)
      else if c = '-' then
        match takeDigits rest with
        | ([], _) => none
        | (ds, r) => some (Json.num (-(digitsVal ds : Int)), r)
      else if c.isDigit then
        match takeDigits (c :: rest) with
        | ([], _) => none
        | (ds, r) => some (Json.num (digitsVal ds : Int), r)
      else none

/-- Parse the comma-separated elements of a nonempty JSON array, including
the closing bracket. -/
def parseElems : Nat → List Char → Option (List Json × List Char)
  | 0, _ => none
  | fuel + 1, cs =>
    match parseVal fuel cs with
    | none => none
    | some (v, r) =>
      match skipWs r with
      | ',' :: r2 =>
        match parseElems fuel r2 with
        | none => none
        | some (vs, r3) => some (v :: vs, r3)
      | ']' :: r2 => some ([v], r2)
      | _ => none

/-- Parse the members of a nonempty JSON object, including the closing
brace. -/
def parseMembers : Nat → List Char → Option (List (String × Json) × List Char)
  | 0, _ => none
  | fuel + 1, cs =>
    match skipWs cs with
    | '\"' :: r =>
      match parseStringBody r with
      | none => none
      | some (k, r2) =>
        match skipWs r2 with
        | ':' :: r3 =>
          match parseVal fuel r3 with
          | none => none
          | some (v, r4) =>
            match skipWs r4 with
            | ',' :: r5 =>
              match parseMembers fuel r5 with
              | none => none
              | some (kvs, r6) => some ((k, v) :: kvs, r6)
            | '\x7d' :: r5 => some ((k, v) :: [], r5)
            | _ => none
        | _ => none
    | _ => none

end

/-- Parse the first JSON value of the input; the second component is the
unconsumed remainder (possibly nonempty: trailing bytes are not an error,
as with `json.Decoder.Decode`). -/
def parseJson (cs : List Char) : Option (Json × List Char) :=
  parseVal (4 * cs.length + 4) cs

/-! ## Record types of `internal/handler` (data model) -/

/-- `Project` represents a portfolio project loaded from
`data/projects.json`. -/
structure Project where
  Title : String
  Description : String
  Tags : List String
  Link : String
  Image : String
deriving Repr, DecidableEq

/-- `Interest` represents a personal interest loaded from
`data/interests.json`. -/
structure Interest where
  Emoji : String
  Label : String
  Description : String
deriving Repr, DecidableEq

/-- `Experience` represents a single entry in `data/experience.json`.
The Go field `Type` ("work" or "education") is called `Typ` here because
`Type` is reserved in Lean. -/
structure Experience where
  Role : String
  Company : String
  CompanyURL : String
  Logo : String
  StartDate : String
  EndDate : String
  Description : List String
  Typ : String
deriving Repr, DecidableEq

/-- `About` holds profile data loaded from `data/about.json`. -/
structure About where
  Name : String
  Tagline : String
  Bio : String
  Location : String
  Availability : Bool
  YearsOfExperience : Int
  Email : String
  GitHub : String
  LinkedIn : String
  X : String
  ProfilePhoto : String
deriving Repr, DecidableEq

/-- `PageData` is passed to all templates. -/
structure PageData where
  About : About
  Projects : List Project
  Interests : List Interest
  Skills : List String
  Experience : List Experience
deriving Repr, DecidableEq

/-- The zero value a fresh Go `About` struct holds before unmarshalling. -/
def zeroAbout : About :=
  { Name := "", Tagline := "", Bio := "", Location := "",
    Availability := false, YearsOfExperience := 0, Email := "",
    GitHub := "", LinkedIn := "", X := "", ProfilePhoto := "" }

/-- The zero value of a fresh Go `Project` struct. -/
def zeroProject : Project :=
  { Title := "", Description := "", Tags := [], Link := "", Image := "" }

/-- The zero value of a fresh Go `Interest` struct. -/
def zeroInterest : Interest :=
  { Emoji := "", Label := "", Description := "" }

/-- The zero value of a fresh Go `Experience` struct. -/
def zeroExperience : Experience :=
  { Role := "", Company := "", CompanyURL := "", Logo := "",
    StartDate := "", EndDate := "", Description := [], Typ := "" }

/-! ## `encoding/json` unmarshalling semantics

Unmarshalling into a struct starts from the zero value, walks the object
members in order, matches each key against the field tags
case-insensitively, ignores unknown keys, errors on a type mismatch, and
treats `null` as a no-op leaving the current value in place. -/

/-- Unmarshal a JSON value into a `string` field currently holding `cur`. -/
def decStringField (cur : String) : Json → Except String String
  | Json.str s => Except.ok s
  | Json.null => Except.ok cur
  | _ => Except.error "cannot unmarshal JSON value into Go value of type string"

/-- Unmarshal a JSON value into a `bool` field currently holding `cur`. -/
def decBoolField (cur : Bool) : Json → Except String Bool
  | Json.bool b => Except.ok b
  | Json.null => Except.ok cur
  | _ => Except.error "cannot unmarshal JSON value into Go value of type bool"

/-- Unmarshal a JSON value into an `int` field currently holding `cur`. -/
def decIntField (cur : Int) : Json → Except String Int
  | Json.num n => Except.ok n
  | Json.null => Except.ok cur
  | _ => Except.error "cannot unmarshal JSON value into Go value of type int"

/-- Unmarshal a JSON value into a `[]string` field currently holding
`cur`. -/
def decStringListField (cur : List String) : Json → Except String (List String)
  | Json.arr xs => xs.mapM (decStringField "")
  | Json.null => Except.ok cur
  | _ => Except.error "cannot unmarshal JSON value into Go value of type []string"

/-- Lowercase a key for case-insensitive tag matching (extensionally
`String.toLower`, defined by structural recursion on the characters). -/
def lowerKey (s : String) : String :=
  String.mk (s.data.map Char.toLower)

/-- Apply one object member to an `About` value (tag-matched
case-insensitively, unknown keys ignored). -/
def aboutSetField (a : About) (key : String) (v : Json) : Except String About :=
  let k := lowerKey key
  if k = "name" then (decStringField a.Name v).map (fun s => { a with Name := s })
  else if k = "tagline" then (decStringField a.Tagline v).map (fun s => { a with Tagline := s })
  else if k = "bio" then (decStringField a.Bio v).map (fun s => { a with Bio := s })
  else if k = "location" then (decStringField a.Location v).map (fun s => { a with Location := s })
  else if k = "availability" then (decBoolField a.Availability v).map (fun b => { a with Availability := b })
  else if k = "years_of_experience" then (decIntField a.YearsOfExperience v).map (fun n => { a with YearsOfExperience := n })
  else if k = "email" then (decStringField a.Email v).map (fun s => { a with Email := s })
  else if k = "github" then (decStringField a.GitHub v).map (fun s => { a with GitHub := s })
  else if k = "linkedin" then (decStringField a.LinkedIn v).map (fun s => { a with LinkedIn := s })
  else if k = "x" then (decStringField a.X v).map (fun s => { a with X := s })
  else if k = "profile_photo" then (decStringField a.ProfilePhoto v).map (fun s => { a with ProfilePhoto := s })
  else Except.ok a

/-- Unmarshal a JSON value into an `About` struct. -/
def decodeAbout : Json → Except String About
  | Json.obj fields => fields.foldlM (fun a kv => aboutSetField a kv.1 kv.2) zeroAbout
  | Json.null => Except.ok zeroAbout
  | _ => Except.error "cannot unmarshal JSON value into Go value of type handler.About"

/-- Apply one object member to a `Project` value. -/
def projectSetField (p : Project) (key : String) (v : Json) : Except String Project :=
  let k := lowerKey key
  if k = "title" then (decStringField p.Title v).map (fun s => { p with Title := s })
  else if k = "description" then (decStringField p.Description v).map (fun s => { p with Description := s })
  else if k = "tags" then (decStringListField p.Tags v).map (fun l => { p with Tags := l })
  else if k = "link" then (decStringField p.Link v).map (fun s => { p with Link := s })
  else if k = "image" then (decStringField p.Image v).map (fun s => { p with Image := s })
  else Except.ok p

/-- Unmarshal a JSON value into a `Project` struct. -/
def decodeProject : Json → Except String Project
  | Json.obj fields => fields.foldlM (fun p kv => projectSetField p kv.1 kv.2) zeroProject
  | Json.null => Except.ok zeroProject
  | _ => Except.error "cannot unmarshal JSON value into Go value of type handler.Project"

/-- Apply one object member to an `Interest` value. -/
def interestSetField (p : Interest) (key : String) (v : Json) : Except String Interest :=
  let k := lowerKey key
  if k = "emoji" then (decStringField p.Emoji v).map (fun s => { p with Emoji := s })
  else if k = "label" then (decStringField p.Label v).map (fun s => { p with Label := s })
  else if k = "description" then (decStringField p.Description v).map (fun s => { p with Description := s })
  else Except.ok p

/-- Unmarshal a JSON value into an `Interest` struct. -/
def decodeInterest : Json → Except String Interest
  | Json.obj fields => fields.foldlM (fun p kv => interestSetField p kv.1 kv.2) zeroInterest
  | Json.null => Except.ok zeroInterest
  | _ => Except.error "cannot unmarshal JSON value into Go value of type handler.Interest"

/-- Apply one object member to an `Experience` value. -/
def experienceSetField (p : Experience) (key : String) (v : Json) : Except String Experience :=
  let k := lowerKey key
  if k = "role" then (decStringField p.Role v).map (fun s => { p with Role := s })
  else if k = "company" then (decStringField p.Company v).map (fun s => { p with Company := s })
  else if k = "company_url" then (decStringField p.CompanyURL v).map (fun s => { p with CompanyURL := s })
  else if k = "logo" then (decStringField p.Logo v).map (fun s => { p with Logo := s })
  else if k = "start_date" then (decStringField p.StartDate v).map (fun s => { p with StartDate := s })
  else if k = "end_date" then (decStringField p.EndDate v).map (fun s => { p with EndDate := s })
  else if k = "description" then (decStringListField p.Description v).map (fun l => { p with Description := l })
  else if k = "type" then (decStringField p.Typ v).map (fun s => { p with Typ := s })
  else Except.ok p

/-- Unmarshal a JSON value into an `Experience` struct. -/
def decodeExperience : Json → Except String Experience
  | Json.obj fields => fields.foldlM (fun p kv => experienceSetField p kv.1 kv.2) zeroExperience
  | Json.null => Except.ok zeroExperience
  | _ => Except.error "cannot unmarshal JSON value into Go value of type handler.Experience"

/-- Unmarshal a JSON value into a slice whose elements decode with `dec`
(element order preserved; `null` yields the nil slice). -/
def decodeListOf (dec : Json → Except String α) : Json → Except String (List α)
  | Json.arr xs => xs.mapM dec
  | Json.null => Except.ok []
  | _ => Except.error "cannot unmarshal JSON value into Go value of type slice"

/-! ## Filesystem, templates, `loadJSON` and `New` -/

/-- The parsed template set, abstracting `html/template.Template`:
`ExecuteTemplate` is modelled as a function from template name and page
data to either the rendered output or an execution error.  (Execution is
modelled as atomic: the template files themselves are embedded assets
outside the Go sources, and the claims concern the handler's control flow
around execution, not the library's streaming.) -/
def TemplateSet : Type := String → PageData → Except String String

/-- An embedded filesystem (`fs.FS`) as the handler constructor sees it:
`files` is `Open` followed by reading the whole content (`none` = the open
error "file does not exist"), and `parseTemplates` is the outcome of
`template.ParseFS(fsys, "templates/*.html")`, abstracted since the
template language is library code. -/
structure GoFS where
  files : String → Option String
  parseTemplates : Except String TemplateSet

/-- `Handler` holds parsed templates and pre-loaded page data. -/
structure Handler where
  tmpl : TemplateSet
  pageData : PageData

/-- Is the computation a success? -/
def isOkE : Except ε α → Bool
  | Except.ok _ => true
  | Except.error _ => false

/-- The error of a failed computation, if any. -/
def errOf : Except ε α → Option ε
  | Except.ok _ => none
  | Except.error e => some e

/-- `loadJSON` opens `path` in `fsys` and decodes its first JSON value with
the unmarshaller `dec` for the target type (the role the `v any` argument
plays in Go).  Trailing bytes after the first value are ignored, as by
`json.NewDecoder(f).Decode(v)`. -/
def loadJSON (fsys : GoFS) (path : String) (dec : Json → Except String α) :
    Except String α :=
  match fsys.files path with
  | none => Except.error ("open " ++ path ++ ": file does not exist")
  | some content =>
    match parseJson content.data with
    | none => Except.error "invalid JSON"
    | some (v, _) => dec v

/-- `New` creates a `Handler` by parsing templates and loading JSON data
from `fsys`; each failing step returns early with an error naming the
step, mirroring the `if err != nil` returns of the Go constructor. -/
def New (fsys : GoFS) : Except String Handler :=
  match fsys.parseTemplates with
  | Except.error e => Except.error ("parse templates: " ++ e)
  | Except.ok tmpl =>
    match loadJSON fsys "data/about.json" decodeAbout with
    | Except.error e => Except.error ("load about.json: " ++ e)
    | Except.ok about =>
      match loadJSON fsys "data/projects.json" (decodeListOf decodeProject) with
      | Except.error e => Except.error ("load projects.json: " ++ e)
      | Except.ok projects =>
        match loadJSON fsys "data/interests.json" (decodeListOf decodeInterest) with
        | Except.error e => Except.error ("load interests.json: " ++ e)
        | Except.ok interests =>
          match loadJSON fsys "data/skills.json" (decodeListOf (decStringField "")) with
          | Except.error e => Except.error ("load skills.json: " ++ e)
          | Except.ok skills =>
            match loadJSON fsys "data/experience.json" (decodeListOf decodeExperience) with
            | Except.error e => Except.error ("load experience.json: " ++ e)
            | Except.ok experience =>
              Except.ok
                { tmpl := tmpl,
                  pageData :=
                    { About := about, Projects := projects,
                      Interests := interests, Skills := skills,
                      Experience := experience } }

/-! ## HTTP response writer, request and log state -/

/-- The observable state of an `http.ResponseWriter`: the committed status
code (`none` until the header is written), the response headers, and the
body bytes written so far.  The first `Write` without an explicit
`WriteHeader` commits status 200; a second `WriteHeader` is ignored
(net/http logs "superfluous WriteHeader" and drops it). -/
structure ResponseWriter where
  status : Option Nat
  headers : List (String × String)
  body : String
deriving Repr, DecidableEq

/-- A response writer before anything has been written. -/
def freshRW : ResponseWriter := { status := none, headers := [], body := "" }

/-- `WriteHeader code`. -/
def writeHeaderRW (w : ResponseWriter) (code : Nat) : ResponseWriter :=
  match w.status with
  | none => { w with status := some code }
  | some _ => w

/-- `Write` of a string: commits status 200 when none was written yet, then
appends to the body. -/
def writeRW (w : ResponseWriter) (s : String) : ResponseWriter :=
  let w2 := match w.status with
            | none => { w with status := some 200 }
            | some _ => w
  { w2 with body := w2.body ++ s }

/-- `Header().Set(k, v)`: replace any previous value of the key. -/
def setHeaderRW (w : ResponseWriter) (k v : String) : ResponseWriter :=
  { w with headers := (k, v) :: w.headers.filter (fun kv => kv.1 ≠ k) }

/-- Get a response header value ("" when unset). -/
def getHeaderRW (w : ResponseWriter) (k : String) : String :=
  match w.headers.find? (fun kv => kv.1 = k) with
  | some kv => kv.2
  | none => ""

/-- `http.Error(w, msg, code)`: sets the plain-text content type, writes
the status code and the message followed by a newline. -/
def httpError (w : ResponseWriter) (msg : String) (code : Nat) : ResponseWriter :=
  let w1 := setHeaderRW w "Content-Type" "text/plain; charset=utf-8"
  let w2 := setHeaderRW w1 "X-Content-Type-Options" "nosniff"
  let w3 := writeHeaderRW w2 code
  writeRW w3 (msg ++ "\n")

/-- An HTTP request as the handlers consume it. -/
structure Request where
  method : String
  path : String
  body : String
deriving Repr, DecidableEq

/-- The per-request observable state of a handler call: the response writer
and the process log (a list of lines, appended by `log.Printf`). -/
structure HState where
  w : ResponseWriter
  log : List String
deriving Repr, DecidableEq

/-! ## Form parsing (`r.ParseForm` / `url.ParseQuery`)

`ParseForm` on the contact route parses the urlencoded body: split on
`&`, reject a segment containing `;`, cut each segment at the first `=`,
percent-decode key and value (`+` is a space); any decoding failure makes
`ParseForm` return an error, which is all `Contact` observes. -/

/-- Value of a hex digit. -/
def hexVal (c : Char) : Option Nat :=
  if c.isDigit then some (c.toNat - 48)
  else if 'a' ≤ c && c ≤ 'f' then some (c.toNat - 97 + 10)
  else if 'A' ≤ c && c ≤ 'F' then some (c.toNat - 65 + 10)
  else none

/-- `url.QueryUnescape`: percent-decoding with `+` as space; `none` on a
malformed escape. -/
def unescape : List Char → Option (List Char)
  | [] => some []
  | '%' :: rest =>
    match rest with
    | h1 :: h2 :: rest2 =>
      match hexVal h1, hexVal h2 with
      | some a, some b =>
        match unescape rest2 with
        | none => none
        | some ds => some (Char.ofNat (16 * a + b) :: ds)
      | _, _ => none
    | _ => none
  | '+' :: rest =>
    match unescape rest with
    | none => none
    | some ds => some (' ' :: ds)
  | c :: rest =>
    match unescape rest with
    | none => none
    | some ds => some (c :: ds)

/-- Cut a segment at the first `=` (empty value when there is none). -/
def cutAtEq : List Char → List Char × List Char
  | [] => ([], [])
  | '=' :: rest => ([], rest)
  | c :: rest =>
    let (k, v) := cutAtEq rest
    (c :: k, v)

/-- Split a body at each `&` (`cur` accumulates the current segment in
reverse), as the parse loop of `url.ParseQuery` cuts the query string. -/
def splitSegs (cur : List Char) : List Char → List (List Char)
  | [] => [cur.reverse]
  | c :: rest =>
    if c = '&' then cur.reverse :: splitSegs [] rest
    else splitSegs (c :: cur) rest

/-- Parse the `&`-separated segments of an urlencoded body into key/value
pairs in order; `none` when any segment is malformed (it contains a `;`
or a bad percent escape). -/
def parseSegments : List (List Char) → Option (List (String × String))
  | [] => some []
  | seg :: rest =>
    if seg = [] then parseSegments rest
    else if seg.contains ';' then none
    else
      let kv := cutAtEq seg
      match unescape kv.1, unescape kv.2 with
      | some kd, some vd =>
        match parseSegments rest with
        | none => none
        | some f => some ((String.mk kd, String.mk vd) :: f)
      | _, _ => none

/-- `r.ParseForm` on the request body; `none` models a non-nil error. -/
def parseForm (body : String) : Option (List (String × String)) :=
  parseSegments (splitSegs [] body.data)

/-- `r.FormValue(key)`: the first value for the key, `""` when absent. -/
def formValue (f : List (String × String)) (key : String) : String :=
  match f.find? (fun kv => kv.1 = key) with
  | some kv => kv.2
  | none => ""

/-- One character under `fmt`'s `%q` quoting. -/
def quoteChar (c : Char) : String :=
  if c = '\"' then "\\\""
  else if c = '\\' then "\\\\"
  else if c = '\n' then "\\n"
  else if c = '\t' then "\\t"
  else if c = '\r' then "\\r"
  else String.singleton c

/-- `fmt`'s `%q` verb on a string (double-quoted Go syntax). -/
def goQuote (s : String) : String :=
  "\"" ++ String.join (s.data.map quoteChar) ++ "\""

/-! ## The handler methods -/

/-- `execute` renders template `name` against `data`; on an execution
error it logs the error and sends the generic 500 response. -/
def execute (h : Handler) (st : HState) (name : String) (data : PageData) :
    HState :=
  match h.tmpl name data with
  | Except.ok out => { st with w := writeRW st.w out }
  | Except.error e =>
    { w := httpError st.w "internal server error" 500,
      log := st.log ++ ["template " ++ goQuote name ++ " error: " ++ e] }

/-- `Index` serves the full single-page application. -/
def Handler.Index (h : Handler) (r : Request) (st : HState) : HState :=
  execute h st "base" h.pageData

/-- `About` serves the about section partial for HTMX. -/
def Handler.About (h : Handler) (r : Request) (st : HState) : HState :=
  execute h st "about" h.pageData

/-- `Projects` serves the projects grid partial for HTMX. -/
def Handler.Projects (h : Handler) (r : Request) (st : HState) : HState :=
  execute h st "projects" h.pageData

/-- `Interests` serves the interests grid partial for HTMX. -/
def Handler.Interests (h : Handler) (r : Request) (st : HState) : HState :=
  execute h st "interests" h.pageData

/-- The fixed HTML success fragment `Contact` writes. -/
def contactSuccessFragment : String :=
  "<div class=\"contact-success\"><p>Thanks for reaching out — I\x27ll be in touch soon.</p></div>"

/-- The submission record `Contact` logs: it mentions the name, the email
and the byte length of the message, never the message content. -/
def contactLogLine (name email message : String) : String :=
  "contact form submission: name=" ++ goQuote name ++ " email=" ++
    goQuote email ++ " message_len=" ++ toString message.utf8ByteSize

/-- `Contact` handles the contact form POST and returns a success
fragment; an unparseable body gets a 400 error. -/
def Handler.Contact (h : Handler) (r : Request) (st : HState) : HState :=
  match parseForm r.body with
  | none => { st with w := httpError st.w "bad request" 400 }
  | some form =>
    let name := formValue form "name"
    let email := formValue form "email"
    let message := formValue form "message"
    let st2 := { st with log := st.log ++ [contactLogLine name email message] }
    let w2 := setHeaderRW st2.w "Content-Type" "text/html; charset=utf-8"
    { st2 with w := writeRW w2 contactSuccessFragment }

/-- `Health` returns 200 OK for health checks. -/
def Handler.Health (h : Handler) (r : Request) (st : HState) : HState :=
  { st with w := writeHeaderRW st.w 200 }

/-! ## Route dispatch and receiver state

The handler methods take a pointer receiver `h *Handler`.  `serveRoute`
returns, next to the response state, the receiver's state after the method
body runs: since no statement in any method assigns to a field of `h`,
that state is the translation of the unmodified receiver. -/

/-- The six routes the mux registers. -/
inductive Route where
  | index
  | about
  | projects
  | interests
  | contact
  | health
deriving Repr, DecidableEq

/-- Dispatch one request to the handler method of its route, returning the
receiver state after the call together with the response state. -/
def serveRoute (h : Handler) (rt : Route) (r : Request) (st : HState) :
    Handler × HState :=
  match rt with
  | Route.index => (h, Handler.Index h r st)
  | Route.about => (h, Handler.About h r st)
  | Route.projects => (h, Handler.Projects h r st)
  | Route.interests => (h, Handler.Interests h r st)
  | Route.contact => (h, Handler.Contact h r st)
  | Route.health => (h, Handler.Health h r st)

/-- Serve a sequence of requests, threading the receiver and the response
and log state. -/
def serveAll (h : Handler) (reqs : List (Route × Request)) (st : HState) :
    Handler × HState :=
  reqs.foldl (fun p rr => serveRoute p.1 rr.1 rr.2 p.2) (h, st)

/-! ## The logging middleware of `cmd/server/main.go`

The inner handler is modelled as the trace of calls it makes on the
wrapped response writer plus its own log lines.  The middleware's
`responseWriter` starts with `status: http.StatusOK` and records the code
of every `WriteHeader` call; after the inner handler returns, exactly one
line with method, path, recorded status and elapsed duration is logged. -/

/-- One call the inner handler makes during a request. -/
inductive WAction where
  | doWrite (s : String)
  | doWriteHeader (code : Nat)
  | doLog (line : String)
deriving Repr, DecidableEq

/-- The status the middleware's `responseWriter` wrapper has recorded
after a trace: 200 initially, overwritten by each `WriteHeader`. -/
def trackStatus (acts : List WAction) : Nat :=
  acts.foldl
    (fun s a => match a with
      | WAction.doWriteHeader c => c
      | _ => s) 200

/-- The log lines the inner handler itself emits during a trace. -/
def innerLogLines (acts : List WAction) : List String :=
  acts.filterMap
    (fun a => match a with
      | WAction.doLog s => some s
      | _ => none)

/-- The one line the middleware logs for a request. -/
def mwLogLine (r : Request) (status : Nat) (dur : String) : String :=
  r.method ++ " " ++ r.path ++ " " ++ toString status ++ " " ++ dur

/-- `loggingMiddleware`: run the inner handler on the wrapping response
writer, then append one log line for the request. `dur` stands for the
measured elapsed duration. -/
def loggingMiddleware (next : Request → List WAction) (r : Request)
    (dur : String) (log0 : List String) : List String :=
  let acts := next r
  log0 ++ innerLogLines acts ++ [mwLogLine r (trackStatus acts) dur]

/-! ## Enumerations used to state the claims -/

/-- The five fixture files `New` loads, in load order. -/
inductive Fixture where
  | about
  | projects
  | interests
  | skills
  | experience
deriving Repr, DecidableEq

/-- The base name of a fixture file. -/
def fixtureName : Fixture → String
  | Fixture.about => "about.json"
  | Fixture.projects => "projects.json"
  | Fixture.interests => "interests.json"
  | Fixture.skills => "skills.json"
  | Fixture.experience => "experience.json"

/-- The error, if any, that loading one fixture produces on `fsys`. -/
def fixtureLoadErr (fsys : GoFS) : Fixture → Option String
  | Fixture.about => errOf (loadJSON fsys "data/about.json" decodeAbout)
  | Fixture.projects =>
    errOf (loadJSON fsys "data/projects.json" (decodeListOf decodeProject))
  | Fixture.interests =>
    errOf (loadJSON fsys "data/interests.json" (decodeListOf decodeInterest))
  | Fixture.skills =>
    errOf (loadJSON fsys "data/skills.json" (decodeListOf (decStringField "")))
  | Fixture.experience =>
    errOf (loadJSON fsys "data/experience.json" (decodeListOf decodeExperience))

/-- The four render routes and the template name each executes. -/
def renderRoutes : List ((Handler → Request → HState → HState) × String) :=
  [(Handler.Index, "base"), (Handler.About, "about"),
   (Handler.Projects, "projects"), (Handler.Interests, "interests")]

/-! ## Concrete values used in witnesses and counterexamples -/

/-- A template set whose every execution succeeds. -/
def tmplOK : TemplateSet := fun _ _ => Except.ok "rendered page"

/-- A template set whose `base` template fails to execute. -/
def tmplBoom : TemplateSet :=
  fun name _ =>
    if name = "base" then Except.error "boom" else Except.ok "rendered page"

/-- Page data where every fixture decoded to its zero value. -/
def pdEmpty : PageData :=
  { About := zeroAbout, Projects := [], Interests := [], Skills := [],
    Experience := [] }

/-- A filesystem whose five fixtures are valid. -/
def fsDemo : GoFS :=
  { files := fun p =>
      if p = "data/about.json" then some "\x7b\"name\":\"Fabien\"\x7d"
      else if p = "data/projects.json" then some "[]"
      else if p = "data/interests.json" then some "[]"
      else if p = "data/skills.json" then some "[\"Go\"]"
      else if p = "data/experience.json" then some "[]"
      else none,
    parseTemplates := Except.ok tmplOK }

/-- The handler `New` constructs from `fsDemo`. -/
def hDemo : Handler :=
  { tmpl := tmplOK,
    pageData :=
      { About := { zeroAbout with Name := "Fabien" }, Projects := [],
        Interests := [], Skills := ["Go"], Experience := [] } }

/-- A handler whose `base` template fails to execute. -/
def hBoom : Handler := { tmpl := tmplBoom, pageData := pdEmpty }

/-- A filesystem whose `about.json` is the empty object: every required
field of `About`, in particular `name`, is omitted. -/
def fsOmitName : GoFS :=
  { files := fun p =>
      if p = "data/about.json" then some "\x7b\x7d"
      else if p = "data/projects.json" then some "[]"
      else if p = "data/interests.json" then some "[]"
      else if p = "data/skills.json" then some "[]"
      else if p = "data/experience.json" then some "[]"
      else none,
    parseTemplates := Except.ok tmplOK }

/-- A filesystem whose `skills.json` is malformed JSON. -/
def fsSkillsBad : GoFS :=
  { files := fun p =>
      if p = "data/about.json" then some "\x7b\x7d"
      else if p = "data/projects.json" then some "[]"
      else if p = "data/interests.json" then some "[]"
      else if p = "data/skills.json" then some "\x7b"
      else if p = "data/experience.json" then some "[]"
      else none,
    parseTemplates := Except.ok tmplOK }

/-- A fixture whose content is one valid JSON value followed by trailing
garbage that is not JSON. -/
def trailingContent : String := "\x7b\"name\":\"Fabien\"\x7d  )(garbage"

/-- A filesystem whose `about.json` has trailing garbage after its JSON
value. -/
def fsTrailing : GoFS :=
  { files := fun p =>
      if p = "data/about.json" then some trailingContent else none,
    parseTemplates := Except.ok tmplOK }

/-- A response state before anything was written or logged. -/
def stEmpty : HState := { w := freshRW, log := [] }

/-- A well-formed contact form submission. -/
def rJane : Request :=
  { method := "POST", path := "/contact",
    body := "name=Jane&email=jane%40x.com&message=hi" }

/-- A second submission: same name, same email, different message content
of the same byte length. -/
def rJane2 : Request :=
  { method := "POST", path := "/contact",
    body := "name=Jane&email=jane%40x.com&message=yo" }

/-- A contact request whose body has a malformed percent escape. -/
def rBadBody : Request :=
  { method := "POST", path := "/contact", body := "name=%zz" }

/-- A plain GET request. -/
def rGet : Request := { method := "GET", path := "/", body := "" }

/-- An inner handler trace that writes a body and never calls
`WriteHeader`. -/
def nextDemo : Request → List WAction := fun _ => [WAction.doWrite "hello"]

/-! ## Helper lemmas -/

/-- A successful `Except.map` comes from a successful computation. -/
theorem exceptMap_ok {α β : Type} {f : α → β} {x : Except String α} {b : β}
    (h : Except.map f x = Except.ok b) : ∃ a, x = Except.ok a ∧ b = f a := by
  cases x with
  | ok a =>
    refine ⟨a, rfl, ?_⟩
    simpa [Except.map] using h.symm
  | error e => simp [Except.map] at h

/-- An object member whose key is not (case-insensitively) `name` leaves
the `Name` field of an `About` value unchanged. -/
theorem aboutSetField_keeps_Name {a b : About} {k : String} {v : Json}
    (hk : lowerKey k ≠ "name") (h : aboutSetField a k v = Except.ok b) :
    b.Name = a.Name := by
  unfold aboutSetField at h
  rw [if_neg hk] at h
  repeat' split at h
  all_goals
    first
    | (obtain ⟨s, hx, hb⟩ := exceptMap_ok h
       subst hb
       rfl)
    | (cases h
       rfl)

/-- Folding object members none of which is keyed `name` over an `About`
value preserves its `Name` field. -/
theorem foldl_about_keeps_Name :
    ∀ (l : List (String × Json)) (a0 a : About),
      (∀ kv ∈ l, lowerKey kv.1 ≠ "name") →
      l.foldlM (fun x kv => aboutSetField x kv.1 kv.2) a0 = Except.ok a →
      a.Name = a0.Name := by
  intro l
  induction l with
  | nil =>
    intro a0 a _ h
    cases h
    rfl
  | cons kv tl ih =>
    intro a0 a hn h
    rw [List.foldlM_cons] at h
    cases hset : aboutSetField a0 kv.1 kv.2 with
    | error e =>
      rw [hset] at h
      exact Except.noConfusion (h : Except.error e = Except.ok a)
    | ok a1 =>
      rw [hset] at h
      have h2 : tl.foldlM (fun x kv => aboutSetField x kv.1 kv.2) a1 = Except.ok a := h
      have h1 := ih a1 a (fun kv2 hm => hn kv2 (List.mem_cons_of_mem _ hm)) h2
      rw [h1]
      exact aboutSetField_keeps_Name (hn kv (List.mem_cons_self _ _)) hset

/-! ## Claim theorems -/

/-- C1 (counterexample): `about.json` containing the empty JSON object
omits every required field of `About`, in particular `name`; yet the load
succeeds and `New` returns a handler (whose `About` is the zero value), so
initialization does not fail, contrary to the claim. -/
theorem missing_required_field_still_loads :
    parseJson ("\x7b\x7d".data) = some (Json.obj [], []) ∧
    New fsOmitName = Except.ok { tmpl := tmplOK, pageData := pdEmpty } :=
  ⟨rfl, rfl⟩

/-- C1 (amended): omitting a field of the target record type does not make
loading fail: `encoding/json` leaves the missing field at its zero value.
Any `about.json` object without a `name` member (under the decoder's
case-insensitive key matching) that decodes successfully yields
`Name = ""`, and handler initialization proceeds. -/
theorem decodeAbout_missing_name_defaults_to_empty
    (fields : List (String × Json)) (a : About)
    (hnone : ∀ kv ∈ fields, lowerKey kv.1 ≠ "name")
    (hok : decodeAbout (Json.obj fields) = Except.ok a) :
    a.Name = "" :=
  foldl_about_keeps_Name fields zeroAbout a hnone hok

/-- C1 (witness): a concrete object with only a `tagline` member decodes
successfully and its `Name` defaults to the empty string. -/
theorem decodeAbout_missing_name_defaults_to_empty_witness :
    decodeAbout (Json.obj [("tagline", Json.str "dev")]) =
      Except.ok { zeroAbout with Tagline := "dev" } ∧
    About.Name { zeroAbout with Tagline := "dev" } = "" :=
  ⟨rfl,
    decodeAbout_missing_name_defaults_to_empty
      [("tagline", Json.str "dev")] _ (by decide) rfl⟩

/-- C2: for every POST /contact request whose body parses as form data,
`Contact` responds with status 200, content-type `text/html`, and a body
equal to the fixed success fragment, which contains the success phrase. -/
theorem contact_parseable_success_response (h : Handler) (r : Request)
    (lg : List String) (f : List (String × String))
    (hp : parseForm r.body = some f) :
    (Handler.Contact h r { w := freshRW, log := lg }).w.status = some 200 ∧
    getHeaderRW (Handler.Contact h r { w := freshRW, log := lg }).w
      "Content-Type" = "text/html; charset=utf-8" ∧
    (Handler.Contact h r { w := freshRW, log := lg }).w.body =
      contactSuccessFragment ∧
    contactSuccessFragment =
      "<div class=\"contact-success\"><p>" ++
        "Thanks for reaching out — I\x27ll be in touch soon." ++ "</p></div>" := by
  unfold Handler.Contact
  rw [hp]
  exact ⟨rfl, rfl, rfl, rfl⟩

/-- C2 (witness): the spec's example request
`name=Jane&email=jane%40x.com&message=hi`. -/
theorem contact_parseable_success_response_witness :
    (Handler.Contact hDemo rJane stEmpty).w.status = some 200 ∧
    getHeaderRW (Handler.Contact hDemo rJane stEmpty).w "Content-Type" =
      "text/html; charset=utf-8" ∧
    (Handler.Contact hDemo rJane stEmpty).w.body = contactSuccessFragment ∧
    contactSuccessFragment =
      "<div class=\"contact-success\"><p>" ++
        "Thanks for reaching out — I\x27ll be in touch soon." ++ "</p></div>" :=
  contact_parseable_success_response hDemo rJane []
    [("name", "Jane"), ("email", "jane@x.com"), ("message", "hi")] rfl

/-- C3: the submission record depends only on the name field, the email
field and the byte length of the message field: two parseable submissions
with equal names, equal emails and messages of equal length append
identical log lines (in particular the message content does not influence
the log). -/
theorem contact_log_noninterference (h1 h2 : Handler) (r1 r2 : Request)
    (st1 st2 : HState) (f1 f2 : List (String × String))
    (hp1 : parseForm r1.body = some f1) (hp2 : parseForm r2.body = some f2)
    (hname : formValue f1 "name" = formValue f2 "name")
    (hemail : formValue f1 "email" = formValue f2 "email")
    (hlen : (formValue f1 "message").utf8ByteSize =
      (formValue f2 "message").utf8ByteSize) :
    (Handler.Contact h1 r1 st1).log.drop st1.log.length =
      (Handler.Contact h2 r2 st2).log.drop st2.log.length := by
  unfold Handler.Contact
  rw [hp1, hp2]
  simp only [List.drop_left]
  rw [contactLogLine, contactLogLine, hname, hemail, hlen]

/-- C3 (witness): submissions with messages `hi` and `yo` (same length,
different content) log the same line. -/
theorem contact_log_noninterference_witness :
    (Handler.Contact hDemo rJane stEmpty).log.drop 0 =
      (Handler.Contact hDemo rJane2 stEmpty).log.drop 0 :=
  contact_log_noninterference hDemo hDemo rJane rJane2 stEmpty stEmpty
    [("name", "Jane"), ("email", "jane@x.com"), ("message", "hi")]
    [("name", "Jane"), ("email", "jane@x.com"), ("message", "yo")]
    rfl rfl rfl rfl rfl

/-- C4: a POST /contact whose body does not parse as form data gets a 400
error response and nothing else: no submission log line and no success
fragment are written. -/
theorem contact_unparseable_400 (h : Handler) (r : Request) (lg : List String)
    (hp : parseForm r.body = none) :
    (Handler.Contact h r { w := freshRW, log := lg }).log = lg ∧
    (Handler.Contact h r { w := freshRW, log := lg }).w.status = some 400 ∧
    (Handler.Contact h r { w := freshRW, log := lg }).w.body =
      "bad request\n" := by
  unfold Handler.Contact
  rw [hp]
  exact ⟨rfl, rfl, rfl⟩

/-- C4 (witness): a body with a malformed percent escape. -/
theorem contact_unparseable_400_witness :
    (Handler.Contact hDemo rBadBody stEmpty).log = [] ∧
    (Handler.Contact hDemo rBadBody stEmpty).w.status = some 400 ∧
    (Handler.Contact hDemo rBadBody stEmpty).w.body = "bad request\n" :=
  contact_unparseable_400 hDemo rBadBody [] rfl

/-- C5: for every render route (Index, About, Projects, Interests) and
every request, a failing template execution logs the error and sends the
generic internal-error message with status 500, while a successful one
writes exactly the template output and no error response. -/
theorem render_routes_error_handling
    (route : Handler → Request → HState → HState) (name : String)
    (hmem : (route, name) ∈ renderRoutes)
    (h : Handler) (r : Request) (lg : List String) :
    (∀ e, h.tmpl name h.pageData = Except.error e →
      (route h r { w := freshRW, log := lg }).w.status = some 500 ∧
      (route h r { w := freshRW, log := lg }).w.body =
        "internal server error\n" ∧
      (route h r { w := freshRW, log := lg }).log =
        lg ++ ["template " ++ goQuote name ++ " error: " ++ e]) ∧
    (∀ out, h.tmpl name h.pageData = Except.ok out →
      route h r { w := freshRW, log := lg } =
        { w := writeRW freshRW out, log := lg }) := by
  simp only [renderRoutes, List.mem_cons, List.mem_singleton, Prod.mk.injEq,
    List.not_mem_nil, or_false] at hmem
  rcases hmem with ⟨hr, hn⟩ | ⟨hr, hn⟩ | ⟨hr, hn⟩ | ⟨hr, hn⟩ <;>
    subst hr <;> subst hn <;>
    constructor <;>
    · intro x hx
      simp only [Handler.Index, Handler.About, Handler.Projects,
        Handler.Interests]
      unfold execute
      rw [hx]
      try exact ⟨rfl, rfl, rfl⟩
      try rfl

/-- C5 (witness): a handler whose `base` template fails with `boom`
yields the 500 response and the error log line on Index. -/
theorem render_routes_error_handling_witness :
    (Handler.Index hBoom rGet stEmpty).w.status = some 500 ∧
    (Handler.Index hBoom rGet stEmpty).w.body = "internal server error\n" ∧
    (Handler.Index hBoom rGet stEmpty).log =
      [] ++ ["template " ++ goQuote "base" ++ " error: " ++ "boom"] :=
  (render_routes_error_handling Handler.Index "base" (by simp [renderRoutes])
    hBoom rGet []).1 "boom" rfl

/-- C7: `Health` responds 200 with an empty body for every request, leaves
the log untouched, its response does not depend on the handler state, and
the receiver state is unchanged. -/
theorem health_200_empty_no_state (h h2 : Handler) (r : Request)
    (st : HState) (lg : List String) :
    (Handler.Health h r { w := freshRW, log := lg }).w.status = some 200 ∧
    (Handler.Health h r { w := freshRW, log := lg }).w.body = "" ∧
    (Handler.Health h r { w := freshRW, log := lg }).log = lg ∧
    Handler.Health h r st = Handler.Health h2 r st ∧
    (serveRoute h Route.health r st).1 = h :=
  ⟨rfl, rfl, rfl, rfl, rfl⟩

/-- C7 (witness): concrete health check against two different handlers. -/
theorem health_200_empty_no_state_witness :
    (Handler.Health hDemo rGet stEmpty).w.status = some 200 ∧
    (Handler.Health hDemo rGet stEmpty).w.body = "" ∧
    (Handler.Health hDemo rGet stEmpty).log = [] ∧
    Handler.Health hDemo rGet stEmpty = Handler.Health hBoom rGet stEmpty ∧
    (serveRoute hDemo Route.health rGet stEmpty).1 = hDemo :=
  health_200_empty_no_state hDemo hBoom rGet stEmpty []

/-- C6: when templates parse but opening or decoding any of the five
fixture files fails, `New` returns an error naming an offending file (the
first failing one in load order) wrapped around the underlying cause, and
no `Handler` value is produced. -/
theorem New_fails_identifying_file (fsys : GoFS) (t : TemplateSet)
    (ht : fsys.parseTemplates = Except.ok t)
    (hfail : ∃ fx, fixtureLoadErr fsys fx ≠ none) :
    (∀ h, New fsys ≠ Except.ok h) ∧
    ∃ fx e, fixtureLoadErr fsys fx = some e ∧
      New fsys = Except.error ("load " ++ fixtureName fx ++ ": " ++ e) := by
  cases hla : loadJSON fsys "data/about.json" decodeAbout with
  | error e =>
    have hNew : New fsys = Except.error ("load about.json: " ++ e) := by
      unfold New
      rw [ht, hla]
    refine ⟨fun h hh => by rw [hNew] at hh; exact Except.noConfusion hh,
      Fixture.about, e, ?_, hNew⟩
    simp [fixtureLoadErr, errOf, hla]
  | ok va =>
  cases hlb : loadJSON fsys "data/projects.json" (decodeListOf decodeProject) with
  | error e =>
    have hNew : New fsys = Except.error ("load projects.json: " ++ e) := by
      unfold New
      rw [ht, hla, hlb]
    refine ⟨fun h hh => by rw [hNew] at hh; exact Except.noConfusion hh,
      Fixture.projects, e, ?_, hNew⟩
    simp [fixtureLoadErr, errOf, hlb]
  | ok vb =>
  cases hlc : loadJSON fsys "data/interests.json" (decodeListOf decodeInterest) with
  | error e =>
    have hNew : New fsys = Except.error ("load interests.json: " ++ e) := by
      unfold New
      rw [ht, hla, hlb, hlc]
    refine ⟨fun h hh => by rw [hNew] at hh; exact Except.noConfusion hh,
      Fixture.interests, e, ?_, hNew⟩
    simp [fixtureLoadErr, errOf, hlc]
  | ok vc =>
  cases hld : loadJSON fsys "data/skills.json" (decodeListOf (decStringField "")) with
  | error e =>
    have hNew : New fsys = Except.error ("load skills.json: " ++ e) := by
      unfold New
      rw [ht, hla, hlb, hlc, hld]
    refine ⟨fun h hh => by rw [hNew] at hh; exact Except.noConfusion hh,
      Fixture.skills, e, ?_, hNew⟩
    simp [fixtureLoadErr, errOf, hld]
  | ok vd =>
  cases hle : loadJSON fsys "data/experience.json" (decodeListOf decodeExperience) with
  | error e =>
    have hNew : New fsys = Except.error ("load experience.json: " ++ e) := by
      unfold New
      rw [ht, hla, hlb, hlc, hld, hle]
    refine ⟨fun h hh => by rw [hNew] at hh; exact Except.noConfusion hh,
      Fixture.experience, e, ?_, hNew⟩
    simp [fixtureLoadErr, errOf, hle]
  | ok ve =>
    exfalso
    obtain ⟨fx, hfx⟩ := hfail
    cases fx <;> simp [fixtureLoadErr, errOf, hla, hlb, hlc, hld, hle] at hfx

/-- C6 (witness): a filesystem whose `skills.json` is malformed; `New`
produces no handler and its error names the file and the cause. -/
theorem New_fails_identifying_file_witness :
    New fsSkillsBad ≠ Except.ok hDemo ∧
    New fsSkillsBad =
      Except.error
        ("load " ++ fixtureName Fixture.skills ++ ": " ++ "invalid JSON") := by
  have h := New_fails_identifying_file fsSkillsBad tmplOK rfl
    ⟨Fixture.skills,
      by simp [show fixtureLoadErr fsSkillsBad Fixture.skills =
        some "invalid JSON" from rfl]⟩
  exact ⟨h.1 hDemo, rfl⟩

/-- C8: for every request through the logging middleware, exactly one log
line is appended after the inner handler completes; it consists of the
request method, the URL path, the recorded response status and the elapsed
duration, and the status is 200 when the inner handler never calls
`WriteHeader` explicitly. -/
theorem loggingMiddleware_one_line (next : Request → List WAction)
    (r : Request) (dur : String) (log0 : List String) :
    loggingMiddleware next r dur log0 =
      log0 ++ innerLogLines (next r) ++
        [mwLogLine r (trackStatus (next r)) dur] ∧
    mwLogLine r (trackStatus (next r)) dur =
      r.method ++ " " ++ r.path ++ " " ++
        toString (trackStatus (next r)) ++ " " ++ dur ∧
    ((∀ c, WAction.doWriteHeader c ∉ next r) → trackStatus (next r) = 200) := by
  refine ⟨rfl, rfl, ?_⟩
  intro hno
  have inv : ∀ (acts : List WAction) (s : Nat),
      (∀ c, WAction.doWriteHeader c ∉ acts) →
      acts.foldl
        (fun s2 a => match a with
          | WAction.doWriteHeader c => c
          | _ => s2) s = s := by
    intro acts
    induction acts with
    | nil => intro s _; rfl
    | cons a tl ih =>
      intro s hn
      rw [List.foldl_cons]
      cases a with
      | doWriteHeader c => exact absurd (List.mem_cons_self _ _) (hn c)
      | doWrite s2 => exact ih s (fun c hmem => hn c (List.mem_cons_of_mem _ hmem))
      | doLog s2 => exact ih s (fun c hmem => hn c (List.mem_cons_of_mem _ hmem))
  exact inv (next r) 200 hno

/-- C8 (witness): an inner handler that only writes a body gets one log
line with status 200. -/
theorem loggingMiddleware_one_line_witness :
    loggingMiddleware nextDemo rGet "12ms" [] = ["GET / 200 12ms"] ∧
    trackStatus (nextDemo rGet) = 200 := by
  have h := loggingMiddleware_one_line nextDemo rGet "12ms" []
  refine ⟨?_, h.2.2 ?_⟩
  · rw [h.1]
    rfl
  · intro c hc
    simp [nextDemo] at hc

/-- C9: the handler state `New` constructs (templates and page data) is
never mutated by request handling: after any sequence of routed calls the
receiver equals the startup value, in particular its `pageData`. -/
theorem handler_state_immutable (fsys : GoFS) (h0 : Handler)
    (hnew : New fsys = Except.ok h0)
    (reqs : List (Route × Request)) (st : HState) :
    (serveAll h0 reqs st).1 = h0 ∧
    (serveAll h0 reqs st).1.pageData = h0.pageData := by
  have inv : ∀ (l : List (Route × Request)) (p : Handler × HState),
      (l.foldl (fun q rr => serveRoute q.1 rr.1 rr.2 q.2) p).1 = p.1 := by
    intro l
    induction l with
    | nil => intro p; rfl
    | cons rr tl ih =>
      intro p
      rw [List.foldl_cons, ih]
      cases hrt : rr.1 <;> rfl
  refine ⟨inv reqs (h0, st),
    by rw [show (serveAll h0 reqs st).1 = h0 from inv reqs (h0, st)]⟩

/-- C9 (witness): the handler built from `fsDemo` is unchanged after an
index render, a contact submission and a health check. -/
theorem handler_state_immutable_witness :
    New fsDemo = Except.ok hDemo ∧
    (serveAll hDemo
      [(Route.index, rGet), (Route.contact, rJane), (Route.health, rGet)]
      stEmpty).1 = hDemo :=
  ⟨rfl,
    (handler_state_immutable fsDemo hDemo rfl
      [(Route.index, rGet), (Route.contact, rJane), (Route.health, rGet)]
      stEmpty).1⟩

/-- C10: `loadJSON` decodes only the first JSON value of a fixture file:
this file content is a valid `About` object followed by trailing bytes
that are not JSON, and loading succeeds with the first value rather than
rejecting the file as malformed. -/
theorem loadJSON_decodes_first_value_only :
    (parseJson trailingContent.data).map (fun p => String.mk p.2) =
      some "  )(garbage" ∧
    loadJSON fsTrailing "data/about.json" decodeAbout =
      Except.ok { zeroAbout with Name := "Fabien" } :=
  ⟨rfl, rfl⟩

end Portfolio
